import Mathlib

/-!
Shallow embedding of the Harvest synchronization connector
(`models/harvest.py`, `wizard/harvest_timesheet_wizard.py`).

Modelling conventions:
* Raw remote JSON records become structures whose `Option` fields model
  keys that the code reads with `.get` (so `none` = key absent); keys read
  with plain indexing (`record['id']`) are mandatory fields.
* Dates are modelled as day ordinals (`Nat`); monetary/hour amounts as `Int`
  (the code only passes them through, never computes with them).
* The ORM store is a `DB` of lists; `search([...], limit=1)` is `List.find?`,
  `record.write(vals)` replaces the first record matched by the same search
  predicate, `create(vals)` appends a record with a fresh surrogate id.
* A violated `required=True` column (NOT NULL) makes the offending
  create/write report an error instead of storing the record.
* The enclosing database transaction of one `sync_harvest_data` run is
  modelled by `sync_harvest_data` returning the initial state on failure
  (rollback) and the mutated state on success (commit).
-/

namespace HarvestSync

/-- Outcome of one HTTP request issued by `requests.get`:
a 200 response with decoded body, a non-200 response with status and text,
or a raised `requests.RequestException`. -/
inductive HttpResult (α : Type) where
  | ok (body : α)
  | httpErr (code : Nat) (text : String)
  | netErr (msg : String)
deriving DecidableEq

/-- Query parameters the connector sends to `GET {base}/time_entries`. -/
structure ReqParams where
  page : Nat
  per_page : Nat
  user_id : Option String
  fromDate : Option Nat
  toDate : Option Nat
deriving DecidableEq

/-- Embedded `user` sub-object of a raw time entry (partial record). -/
structure RawEmbUser where
  id : Nat
  name : Option String
deriving DecidableEq

/-- Embedded `project` sub-object of a raw time entry (partial record);
also the input of `_create_or_update_proxy_project`. -/
structure RawEmbProject where
  id : Nat
  name : Option String
  code : Option String
deriving DecidableEq

/-- Raw user record as returned by `GET users` / `GET users/me`. -/
structure RawFullUser where
  id : Nat
  first_name : Option String
  last_name : Option String
  email : Option String
  is_active : Option Bool
deriving DecidableEq

/-- Raw project record as returned by `GET projects` / `GET projects/{id}`. -/
structure RawProject where
  id : Nat
  name : Option String
  code : Option String
  is_active : Option Bool
  budget : Option Int
deriving DecidableEq

/-- Raw time entry from `GET time_entries` (`spent_date` is always present
in the remote payload; `user`/`project` sub-objects may be absent). -/
structure RawTimeEntry where
  id : Nat
  spent_date : Nat
  hours : Option Int
  notes : Option String
  is_locked : Option Bool
  is_running : Option Bool
  user : Option RawEmbUser
  project : Option RawEmbProject
deriving DecidableEq

/-- One decoded page of the `time_entries` listing envelope. -/
structure Page where
  time_entries : List RawTimeEntry
  total_pages : Nat
deriving DecidableEq

/-- The remote Harvest API, as an oracle fixed for one run. -/
structure Remote where
  usersMe : HttpResult RawFullUser
  probeUsers200 : Bool
  probeProjects200 : Bool
  probeAllTime200 : Bool
  listUsers : HttpResult (List RawFullUser)
  listProjects : HttpResult (List RawProject)
  timeEntries : ReqParams → HttpResult Page
  projectDetail : Nat → HttpResult RawProject

/-- `hr.employee` collaborator record (external to the sync core). -/
structure Employee where
  eid : Nat
  work_email : Option String
deriving DecidableEq

/-- `harvest.user` mirror record. -/
structure MirrorUser where
  rid : Nat
  harvest_id : String
  name : String
  email : Option String
  employee_id : Option Nat
  is_active : Bool
  config_id : Nat
deriving DecidableEq

/-- `harvest.project` mirror record. -/
structure MirrorProject where
  rid : Nat
  harvest_id : String
  name : String
  code : Option String
  project_id : Option Nat
  is_active : Bool
  budget : Option Int
  config_id : Nat
deriving DecidableEq

/-- `harvest.time.entry` mirror record. -/
structure MirrorTimeEntry where
  rid : Nat
  harvest_id : String
  spent_date : Nat
  hours : Int
  notes : Option String
  is_locked : Bool
  is_running : Bool
  harvest_user_id : Option Nat
  harvest_project_id : Option Nat
  timesheet_id : Option Nat
  config_id : Nat
deriving DecidableEq

/-- `account.analytic.line` record produced by the timesheet wizard. -/
structure Timesheet where
  tid : Nat
  name : String
  project_id : Nat
  task_id : Option Nat
  so_line : Option Nat
  employee_id : Nat
  date : Nat
  unit_amount : Int
deriving DecidableEq

/-- The mirror store plus the read-only employee table. -/
structure DB where
  employees : List Employee
  users : List MirrorUser
  projects : List MirrorProject
  entries : List MirrorTimeEntry
  nextId : Nat
deriving DecidableEq

/-- The `sync_level` selection field. -/
inductive SyncLevel where
  | my_time
  | all_time
  | full
deriving DecidableEq

/-- `harvest.config` record (the fields the sync core reads or writes). -/
structure Config where
  cid : Nat
  sync_level : SyncLevel
  can_access_users : Bool
  can_access_projects : Bool
  can_access_all_time : Bool
  current_user_id : Option String
  sync_days_back : Nat
  sync_all_dates : Bool
  last_sync : Option Nat
deriving DecidableEq

/-- `recordset.write(vals)` after a `search(..., limit=1)`: update the first
element satisfying the search predicate. -/
def replaceFirst {α : Type} (p : α → Bool) (f : α → α) : List α → List α
  | [] => []
  | x :: xs => if p x then f x :: xs else x :: replaceFirst p f xs

/-- `HarvestConfig._create_or_update_user` (harvest.py lines 227-247). -/
def create_or_update_user (cfg : Nat) (raw : RawFullUser) (db : DB) : DB :=
  let hid := toString raw.id
  let nm := (raw.first_name.getD "" ++ " " ++ raw.last_name.getD "").trim
  let upd : MirrorUser → MirrorUser := fun u =>
    { u with
      harvest_id := hid, name := nm, email := raw.email,
      is_active := raw.is_active.getD false, config_id := cfg }
  match db.users.find? (fun u => u.harvest_id == hid) with
  | some _ =>
    { db with users := replaceFirst (fun u => u.harvest_id == hid) upd db.users }
  | none =>
    let emp := db.employees.find? (fun e => e.work_email == raw.email)
    let nu : MirrorUser :=
      { rid := db.nextId, harvest_id := hid, name := nm, email := raw.email,
        employee_id := emp.map (fun e => e.eid),
        is_active := raw.is_active.getD false, config_id := cfg }
    { db with users := db.users ++ [nu], nextId := db.nextId + 1 }

/-- `HarvestConfig._create_or_update_project` (harvest.py lines 271-288).
A record whose `name` key is absent writes NULL into the required `name`
column, which the store rejects. -/
def create_or_update_project (cfg : Nat) (raw : RawProject) (db : DB) :
    Except String DB :=
  let hid := toString raw.id
  match db.projects.find? (fun p => p.harvest_id == hid) with
  | some _ =>
    match raw.name with
    | none => Except.error "harvest.project: name is required"
    | some nm =>
      let upd : MirrorProject → MirrorProject := fun p =>
        { p with
          harvest_id := hid, name := nm, code := raw.code,
          is_active := raw.is_active.getD false, budget := raw.budget, config_id := cfg }
      Except.ok { db with projects := replaceFirst (fun p => p.harvest_id == hid) upd db.projects }
  | none =>
    match raw.name with
    | none => Except.error "harvest.project: name is required"
    | some nm =>
      let np : MirrorProject :=
        { rid := db.nextId, harvest_id := hid, name := nm, code := raw.code,
          project_id := none, is_active := raw.is_active.getD false,
          budget := raw.budget, config_id := cfg }
      Except.ok { db with projects := db.projects ++ [np], nextId := db.nextId + 1 }

/-- `if project_data.get('name') and project_data['name'] != f"Project {id}"`
(harvest.py line 466): Python truthiness of the incoming name, plus the
synthetic-placeholder comparison. -/
def proxyNameCond (raw : RawEmbProject) : Bool :=
  match raw.name with
  | some n => n != "" && n != ("Project " ++ toString raw.id)
  | none => false

/-- `if project_data.get('code')` (harvest.py line 468): Python truthiness
of the incoming code. -/
def proxyCodeCond (raw : RawEmbProject) : Bool :=
  match raw.code with
  | some cd => cd != ""
  | none => false

/-- `HarvestConfig._create_or_update_proxy_project` (harvest.py lines 450-471). -/
def create_or_update_proxy_project (cfg : Nat) (raw : RawEmbProject) (db : DB) : DB :=
  let hid := toString raw.id
  let synth := "Project " ++ toString raw.id
  let updName : MirrorProject → MirrorProject := fun p => { p with name := raw.name.getD "" }
  let updCode : MirrorProject → MirrorProject := fun p => { p with code := some (raw.code.getD "") }
  match db.projects.find? (fun p => p.harvest_id == hid) with
  | some _ =>
    let db1 :=
      if proxyNameCond raw then
        { db with projects := replaceFirst (fun p => p.harvest_id == hid) updName db.projects }
      else db
    if proxyCodeCond raw then
      { db1 with projects := replaceFirst (fun p => p.harvest_id == hid) updCode db1.projects }
    else db1
  | none =>
    let np : MirrorProject :=
      { rid := db.nextId, harvest_id := hid, name := raw.name.getD synth,
        code := some (raw.code.getD ""), project_id := none, is_active := true,
        budget := none, config_id := cfg }
    { db with projects := db.projects ++ [np], nextId := db.nextId + 1 }

/-- Resolution of the embedded `user` sub-object of a time entry
(harvest.py lines 478-489): look up the mirror user by external id,
creating a proxy user when absent. -/
def resolveUser (cfg : Nat) (db : DB) : Option RawEmbUser → Option Nat × DB
  | none => (none, db)
  | some u =>
    match db.users.find? (fun x => x.harvest_id == toString u.id) with
    | some hu => (some hu.rid, db)
    | none =>
      let nu : MirrorUser :=
        { rid := db.nextId, harvest_id := toString u.id,
          name := u.name.getD "Unknown User", email := none, employee_id := none,
          is_active := false, config_id := cfg }
      (some db.nextId, { db with users := db.users ++ [nu], nextId := db.nextId + 1 })

/-- Resolution of the embedded `project` sub-object of a time entry
(harvest.py lines 491-506): look up the mirror project by external id,
creating a proxy project when absent. -/
def resolveProject (cfg : Nat) (db : DB) : Option RawEmbProject → Option Nat × DB
  | none => (none, db)
  | some pd =>
    match db.projects.find? (fun x => x.harvest_id == toString pd.id) with
    | some hp => (some hp.rid, db)
    | none =>
      let np : MirrorProject :=
        { rid := db.nextId, harvest_id := toString pd.id,
          name := pd.name.getD ("Project " ++ toString pd.id),
          code := some (pd.code.getD ""), project_id := none, is_active := true,
          budget := none, config_id := cfg }
      (some db.nextId, { db with projects := db.projects ++ [np], nextId := db.nextId + 1 })

/-- The `values` dict written to an existing `harvest.time.entry`
(harvest.py lines 508-518); `timesheet_id` is not among the written keys. -/
def entryVals (cfg : Nat) (raw : RawTimeEntry) (ur : Nat) (projRef : Option Nat)
    (t : MirrorTimeEntry) : MirrorTimeEntry :=
  { t with
    harvest_id := toString raw.id, spent_date := raw.spent_date,
    hours := raw.hours.getD 0, notes := raw.notes,
    is_locked := raw.is_locked.getD false, is_running := raw.is_running.getD false,
    harvest_user_id := some ur, harvest_project_id := projRef, config_id := cfg }

/-- The fresh `harvest.time.entry` created when no record with this
external id exists yet. -/
def newEntry (cfg : Nat) (raw : RawTimeEntry) (ur : Nat) (projRef : Option Nat)
    (rid : Nat) : MirrorTimeEntry :=
  { rid := rid, harvest_id := toString raw.id, spent_date := raw.spent_date,
    hours := raw.hours.getD 0, notes := raw.notes,
    is_locked := raw.is_locked.getD false, is_running := raw.is_running.getD false,
    harvest_user_id := some ur, harvest_project_id := projRef,
    timesheet_id := none, config_id := cfg }

/-- `HarvestConfig._create_or_update_time_entry` (harvest.py lines 473-523).
Returns the mutated store together with `some errorMessage` when the final
create/write violates the required `harvest_user_id` column; mutations made
before the violation (proxy records) stay in the open transaction. -/
def create_or_update_time_entry (cfg : Nat) (raw : RawTimeEntry) (db : DB) :
    DB × Option String :=
  let hasExisting := (db.entries.find? (fun t => t.harvest_id == toString raw.id)).isSome
  match resolveUser cfg db raw.user with
  | (userRef, dbU) =>
    match resolveProject cfg dbU raw.project with
    | (projRef, dbP) =>
      match userRef with
      | none => (dbP, some "harvest.time.entry: harvest_user_id is required")
      | some ur =>
        if hasExisting then
          let es := replaceFirst (fun t => t.harvest_id == toString raw.id)
            (entryVals cfg raw ur projRef) dbP.entries
          ({ dbP with entries := es }, none)
        else
          let es := dbP.entries ++ [newEntry cfg raw ur projRef dbP.nextId]
          ({ dbP with entries := es, nextId := dbP.nextId + 1 }, none)

/-- The per-page upsert loop body `for entry in data.get('time_entries', [])`:
entries are reconciled in order; the first failing upsert raises, keeping
the mutations made up to that point in the open transaction. -/
def upsertEntries (cfg : Nat) : List RawTimeEntry → DB → DB × Option String
  | [], db => (db, none)
  | e :: rest, db =>
    match create_or_update_time_entry cfg e db with
    | (db2, none) => upsertEntries cfg rest db2
    | (db2, some m) => (db2, some m)

/-- The pagination loop of `HarvestConfig.sync_time_entries`
(harvest.py lines 303-324): a non-200 page response is logged and breaks
the loop, and any exception raised inside the loop (network failure or a
failing upsert) is caught by the surrounding blanket handler, so the
function always returns normally.  `fuel` bounds the number of iterations
of the source's `while True` loop; every claim supplies enough fuel.
Also returns the list of requests issued, newest last. -/
def pageLoopSwallow (fetch : ReqParams → HttpResult Page) (cfg : Nat) :
    Nat → Nat → ReqParams → DB → List ReqParams → DB × List ReqParams
  | 0, _, _, db, tr => (db, tr)
  | fuel+1, page, base, db, tr =>
    let ps : ReqParams := { base with page := page }
    match fetch ps with
    | HttpResult.ok body =>
      match upsertEntries cfg body.time_entries db with
      | (db2, none) =>
        if page ≥ body.total_pages then (db2, tr ++ [ps])
        else pageLoopSwallow fetch cfg fuel (page + 1) base db2 (tr ++ [ps])
      | (db2, some _) => (db2, tr ++ [ps])
    | HttpResult.httpErr _ _ => (db, tr ++ [ps])
    | HttpResult.netErr _ => (db, tr ++ [ps])

/-- The pagination loop of `HarvestConfig.sync_my_time_entries`
(harvest.py lines 357-377): a non-200 page response raises a `UserError`,
a network failure raises a `UserError`, and a failing upsert is re-raised
by the `except Exception` handler.  `fuel` as in `pageLoopSwallow`. -/
def pageLoopRaise (fetch : ReqParams → HttpResult Page) (cfg : Nat) :
    Nat → Nat → ReqParams → DB → List ReqParams → Except String DB × List ReqParams
  | 0, _, _, db, tr => (Except.ok db, tr)
  | fuel+1, page, base, db, tr =>
    let ps : ReqParams := { base with page := page }
    match fetch ps with
    | HttpResult.ok body =>
      match upsertEntries cfg body.time_entries db with
      | (db2, none) =>
        if page ≥ body.total_pages then (Except.ok db2, tr ++ [ps])
        else pageLoopRaise fetch cfg fuel (page + 1) base db2 (tr ++ [ps])
      | (_, some m) => (Except.error m, tr ++ [ps])
    | HttpResult.httpErr _ txt => (Except.error ("Failed to fetch time entries: " ++ txt), tr ++ [ps])
    | HttpResult.netErr m => (Except.error ("Network error while syncing time entries: " ++ m), tr ++ [ps])

/-- The date-window query parameters built by `sync_time_entries` /
`sync_my_time_entries` (harvest.py lines 292-301 and 336-349). -/
def windowParams (c : Config) (today : Nat) (uid : Option String) : ReqParams :=
  { page := 1, per_page := 100, user_id := uid,
    fromDate := if c.sync_all_dates then none else some (today - c.sync_days_back),
    toDate := if c.sync_all_dates then none else some today }

/-- `HarvestConfig.sync_time_entries` (harvest.py lines 290-327): the bulk
time-entry phase used in `full` and `all_time` mode.  Its blanket
`except Exception` handler only logs, so the phase never raises. -/
def sync_time_entries (r : Remote) (c : Config) (today fuel : Nat) (db : DB) :
    DB × List ReqParams :=
  pageLoopSwallow r.timeEntries c.cid fuel 1 (windowParams c today none) db []

/-- `HarvestConfig.sync_users` (harvest.py lines 206-225). -/
def sync_users (r : Remote) (c : Config) (db : DB) : Except String DB :=
  match r.listUsers with
  | HttpResult.ok us => Except.ok (us.foldl (fun d u => create_or_update_user c.cid u d) db)
  | HttpResult.httpErr _ txt => Except.error ("Failed to fetch users: " ++ txt)
  | HttpResult.netErr m => Except.error ("Network error while syncing users: " ++ m)

/-- `HarvestConfig.sync_projects` (harvest.py lines 249-269); an upsert
failure (project record with no name) propagates via the re-raising
`except Exception` handler. -/
def sync_projects (r : Remote) (c : Config) (db : DB) : Except String DB :=
  match r.listProjects with
  | HttpResult.ok ps => ps.foldlM (fun d p => create_or_update_project c.cid p d) db
  | HttpResult.httpErr _ txt => Except.error ("Failed to fetch projects: " ++ txt)
  | HttpResult.netErr m => Except.error ("Network error while syncing projects: " ++ m)

/-- `HarvestConfig._ensure_current_user` (harvest.py lines 386-401):
best effort, all failures swallowed. -/
def ensure_current_user (r : Remote) (c : Config) (db : DB) : DB :=
  match c.current_user_id with
  | none => db
  | some _ =>
    match r.usersMe with
    | HttpResult.ok u => create_or_update_user c.cid u db
    | _ => db

/-- The first-occurrence collection of distinct embedded projects from the
current user's time entries (harvest.py lines 419-427, an insertion-ordered
dict keyed by project id). -/
def collectEmbProjects : List RawTimeEntry → List RawEmbProject → List RawEmbProject
  | [], acc => acc
  | e :: rest, acc =>
    match e.project with
    | some pd =>
      if acc.any (fun q => q.id == pd.id) then collectEmbProjects rest acc
      else collectEmbProjects rest (acc ++ [pd])
    | none => collectEmbProjects rest acc

/-- `HarvestConfig._sync_user_projects` (harvest.py lines 403-448):
best effort; a failing detail fetch or a failing full upsert falls back to
the proxy path, and any other failure is swallowed. -/
def sync_user_projects (r : Remote) (c : Config) (uid : String) (db : DB) : DB :=
  match r.timeEntries { page := 1, per_page := 100, user_id := some uid, fromDate := none, toDate := none } with
  | HttpResult.ok body =>
    (collectEmbProjects body.time_entries []).foldl (fun d pd =>
      match r.projectDetail pd.id with
      | HttpResult.ok full =>
        match create_or_update_project c.cid full d with
        | Except.ok d2 => d2
        | Except.error _ => create_or_update_proxy_project c.cid pd d
      | _ => create_or_update_proxy_project c.cid pd d) db
  | _ => db

/-- `HarvestConfig.sync_my_time_entries` (harvest.py lines 329-384). -/
def sync_my_time_entries (r : Remote) (c : Config) (today fuel : Nat) (db : DB) :
    Except String DB :=
  match c.current_user_id with
  | none => Except.error "Current user ID not found. Please check access levels first."
  | some uid =>
    let db1 := ensure_current_user r c db
    let db2 := sync_user_projects r c uid db1
    (pageLoopRaise r.timeEntries c.cid fuel 1 (windowParams c today (some uid)) db2 []).1

/-- `HarvestConfig.check_access_levels` (harvest.py lines 85-166): four
independently-caught probes update the capability flags and the cached
current user id, then the sync level is adjusted. -/
def check_access_levels (r : Remote) (c : Config) : Config :=
  let me : Option String :=
    match r.usersMe with
    | HttpResult.ok u => some (toString u.id)
    | _ => none
  let c1 : Config :=
    { c with
      current_user_id := me, can_access_users := r.probeUsers200,
      can_access_projects := r.probeProjects200, can_access_all_time := r.probeAllTime200 }
  if !r.probeUsers200 && !r.probeProjects200 then { c1 with sync_level := SyncLevel.my_time }
  else if !r.probeUsers200 then { c1 with sync_level := SyncLevel.all_time }
  else c1

/-- The phase-selection body of `HarvestConfig.sync_harvest_data`
(harvest.py lines 175-187), run inside the top-level try block. -/
def runSyncBody (r : Remote) (today fuel : Nat) (c1 : Config) (db : DB) :
    Except String DB :=
  match c1.sync_level with
  | SyncLevel.full =>
    match (if c1.can_access_users then sync_users r c1 db else Except.ok db) with
    | Except.error m => Except.error m
    | Except.ok db1 =>
      match (if c1.can_access_projects then sync_projects r c1 db1 else Except.ok db1) with
      | Except.error m => Except.error m
      | Except.ok db2 => Except.ok (sync_time_entries r c1 today fuel db2).1
  | SyncLevel.all_time =>
    match (if c1.can_access_projects then sync_projects r c1 db else Except.ok db) with
    | Except.error m => Except.error m
    | Except.ok db1 => Except.ok (sync_time_entries r c1 today fuel db1).1
  | SyncLevel.my_time => sync_my_time_entries r c1 today fuel db

/-- `HarvestConfig.sync_harvest_data` (harvest.py lines 168-204), the
`runSync` entry point.  On success the `last_sync` timestamp is written and
the transaction committed; on any exception the transaction is rolled back
(both the mirror-store and the config writes of this run are undone) and a
`UserError` is raised, modelled by returning the initial state together
with `some message`. -/
def sync_harvest_data (r : Remote) (now today fuel : Nat) (c : Config) (db : DB) :
    (Config × DB) × Option String :=
  let c1 := match c.current_user_id with
    | none => check_access_levels r c
    | some _ => c
  match runSyncBody r today fuel c1 db with
  | Except.ok db2 => (({ c1 with last_sync := some now }, db2), none)
  | Except.error m => ((c, db), some ("Synchronization failed: " ++ m))

/-- `assignment_mode` of the timesheet wizard. -/
inductive AssignMode where
  | auto
  | manual
deriving DecidableEq

/-- The operator-facing settings of `harvest.timesheet.wizard`. -/
structure Wizard where
  assignment_mode : AssignMode
  default_task_id : Option Nat
  default_so_line_id : Option Nat
deriving DecidableEq

/-- Dereference an optional Many2one field: an unset reference yields an
empty recordset, whose attributes are falsy. -/
def linkOf (f : Nat → Option Nat) : Option Nat → Option Nat
  | none => none
  | some r => f r

/-- `harvest_entry.notes or '/'` (Python truthiness: absent or empty notes
fall back to the slash). -/
def notesOrSlash : Option String → String
  | none => "/"
  | some n => if n = "" then "/" else n

/-- `HarvestTimesheetWizard.action_create_timesheets`
(harvest_timesheet_wizard.py lines 29-69).  `empLink` maps a mirror user to
its linked employee, `prjLink` maps a mirror project to its linked local
project, `autoTask`/`autoSoLine` model the `_get_auto_assignments` searches
for a given local project.  Returns the updated entry set, the created
timesheet records, and the created count reported to the operator. -/
def action_create_timesheets (w : Wizard) (autoTask autoSoLine empLink prjLink : Nat → Option Nat) :
    Nat → List MirrorTimeEntry → List MirrorTimeEntry × List Timesheet × Nat
  | _, [] => ([], [], 0)
  | nextTs, e :: rest =>
    match e.timesheet_id, linkOf empLink e.harvest_user_id with
    | none, some emp =>
      match linkOf prjLink e.harvest_project_id with
      | none =>
        let res := action_create_timesheets w autoTask autoSoLine empLink prjLink nextTs rest
        (e :: res.1, res.2.1, res.2.2)
      | some proj =>
        let asg : Option Nat × Option Nat :=
          match w.assignment_mode with
          | AssignMode.manual => (w.default_task_id, w.default_so_line_id)
          | AssignMode.auto => (autoTask proj, autoSoLine proj)
        let sheet : Timesheet :=
          { tid := nextTs, name := notesOrSlash e.notes, project_id := proj,
            task_id := asg.1, so_line := asg.2, employee_id := emp,
            date := e.spent_date, unit_amount := e.hours }
        let e2 : MirrorTimeEntry := { e with timesheet_id := some nextTs }
        let res := action_create_timesheets w autoTask autoSoLine empLink prjLink (nextTs + 1) rest
        (e2 :: res.1, sheet :: res.2.1, res.2.2 + 1)
    | _, _ =>
      let res := action_create_timesheets w autoTask autoSoLine empLink prjLink nextTs rest
      (e :: res.1, res.2.1, res.2.2)

/-- The eligibility test of the projection: no timesheet link yet, the
entry's user is linked to an employee, the entry's project is linked to a
local project. -/
def eligibleTs (empLink prjLink : Nat → Option Nat) (e : MirrorTimeEntry) : Bool :=
  e.timesheet_id == none && (linkOf empLink e.harvest_user_id).isSome &&
    (linkOf prjLink e.harvest_project_id).isSome

/-! ### Helper lemmas about the store primitives -/

theorem replaceFirst_map_key {α β : Type} (key : α → β) (p : α → Bool) (f : α → α)
    (h : ∀ x, p x = true → key (f x) = key x) :
    ∀ l : List α, (replaceFirst p f l).map key = l.map key := by
  intro l
  induction l with
  | nil => rfl
  | cons x xs ih =>
    by_cases hp : p x = true
    · simp [replaceFirst, hp, h x hp]
    · simp [replaceFirst, hp, ih]

theorem find?_replaceFirst {α : Type} (p : α → Bool) (f : α → α)
    (h : ∀ x, p x = true → p (f x) = true) :
    ∀ l : List α, (replaceFirst p f l).find? p = (l.find? p).map f := by
  intro l
  induction l with
  | nil => rfl
  | cons x xs ih =>
    by_cases hp : p x = true
    · simp [replaceFirst, hp, List.find?_cons_of_pos, h x hp]
    · simp [replaceFirst, hp, List.find?_cons_of_neg, ih]

theorem find?_append_right {α : Type} (p : α → Bool) (a : α) (l : List α)
    (hl : l.find? p = none) (ha : p a = true) : (l ++ [a]).find? p = some a := by
  induction l with
  | nil => simp [List.find?, ha]
  | cons x xs ih =>
    rcases List.find?_eq_none.mp hl x (by simp) with hx
    have hxs : xs.find? p = none := by
      rw [List.find?_eq_none] at hl ⊢
      exact fun y hy => hl y (by simp [hy])
    simp [List.find?_cons_of_neg, hx, ih hxs]

/-- Appending a record whose key is not yet present keeps the key list
duplicate-free. -/
theorem nodup_map_append {α β : Type} (key : α → β) (l : List α) (a : α)
    (h : (l.map key).Nodup) (hf : ∀ x ∈ l, key x ≠ key a) :
    ((l ++ [a]).map key).Nodup := by
  rw [List.map_append, List.map_singleton]
  refine List.Nodup.append h (List.nodup_singleton _) ?_
  intro b hb hb2
  rcases List.mem_map.mp hb with ⟨x, hx, rfl⟩
  rcases List.mem_singleton.mp hb2 with h2
  exact hf x hx h2

/-! ### Frame lemmas for the referential resolver -/

theorem resolveUser_entries (cfg : Nat) (db : DB) (o : Option RawEmbUser) :
    (resolveUser cfg db o).2.entries = db.entries := by
  cases o with
  | none => rfl
  | some u =>
    simp only [resolveUser]
    cases hf : db.users.find? (fun x => x.harvest_id == toString u.id) <;> rfl

theorem resolveUser_projects (cfg : Nat) (db : DB) (o : Option RawEmbUser) :
    (resolveUser cfg db o).2.projects = db.projects := by
  cases o with
  | none => rfl
  | some u =>
    simp only [resolveUser]
    cases hf : db.users.find? (fun x => x.harvest_id == toString u.id) <;> rfl

theorem resolveProject_entries (cfg : Nat) (db : DB) (o : Option RawEmbProject) :
    (resolveProject cfg db o).2.entries = db.entries := by
  cases o with
  | none => rfl
  | some pd =>
    simp only [resolveProject]
    cases hf : db.projects.find? (fun x => x.harvest_id == toString pd.id) <;> rfl

theorem resolveProject_users (cfg : Nat) (db : DB) (o : Option RawEmbProject) :
    (resolveProject cfg db o).2.users = db.users := by
  cases o with
  | none => rfl
  | some pd =>
    simp only [resolveProject]
    cases hf : db.projects.find? (fun x => x.harvest_id == toString pd.id) <;> rfl

theorem resolveUser_some (cfg : Nat) (db : DB) (u : RawEmbUser) :
    ∃ k, (resolveUser cfg db (some u)).1 = some k := by
  simp only [resolveUser]
  cases hf : db.users.find? (fun x => x.harvest_id == toString u.id) with
  | none => exact ⟨_, rfl⟩
  | some hu => exact ⟨_, rfl⟩

/-! ### Claims -/

/-- C1: every `sync_harvest_data` run is all-or-nothing over the mirror
store: a raising run leaves the configuration and the store exactly as they
were (rollback), and a successful run commits its mutations together with a
`last_sync` update to the time of the run. -/
theorem sync_harvest_data_transactional (r : Remote) (now today fuel : Nat)
    (c : Config) (db : DB) :
    (∃ e, sync_harvest_data r now today fuel c db = ((c, db), some e)) ∨
    (∃ c2 db2, sync_harvest_data r now today fuel c db = ((c2, db2), none) ∧
      c2.last_sync = some now) := by
  simp only [sync_harvest_data]
  split
  · right; exact ⟨_, _, rfl, rfl⟩
  · left; exact ⟨_, rfl⟩

/-- C2 (code evaluated at the failing input): with `sync_level = full` and
every `time_entries` page request answering HTTP 500, `sync_harvest_data`
still returns success and stamps `last_sync`, because
`sync_time_entries` only logs the failure — the claimed raise-and-rollback
does not happen. -/
def c2remote : Remote :=
  { usersMe := HttpResult.netErr "unused",
    probeUsers200 := false, probeProjects200 := false, probeAllTime200 := false,
    listUsers := HttpResult.netErr "unused", listProjects := HttpResult.netErr "unused",
    timeEntries := fun _ => HttpResult.httpErr 500 "Server Error",
    projectDetail := fun _ => HttpResult.netErr "unused" }

def c2cfg : Config :=
  { cid := 1, sync_level := SyncLevel.full, can_access_users := false,
    can_access_projects := false, can_access_all_time := false,
    current_user_id := some "9", sync_days_back := 30, sync_all_dates := false,
    last_sync := none }

def c2db : DB := { employees := [], users := [], projects := [], entries := [], nextId := 1 }

theorem sync_time_entries_failure_swallowed :
    (∀ ps, c2remote.timeEntries ps = HttpResult.httpErr 500 "Server Error") ∧
    (sync_harvest_data c2remote 5 100 3 c2cfg c2db).2 = none ∧
    (sync_harvest_data c2remote 5 100 3 c2cfg c2db).1.1.last_sync = some 5 ∧
    (sync_harvest_data c2remote 5 100 3 c2cfg c2db).1.2 = c2db :=
  ⟨fun _ => rfl, by decide, by decide, by decide⟩

/-- C3 counterexample: with the user-listing probe succeeding and the
project-listing probe failing, `sync_level` stays `full` (the claim says it
must never remain `full`); and with the user probe failing while the
project probe succeeds, a `my_time` level is raised to `all_time` (the
claim says the adjustment never raises the level). -/
def c3remA : Remote :=
  { usersMe := HttpResult.ok { id := 9, first_name := none, last_name := none, email := none, is_active := none },
    probeUsers200 := true, probeProjects200 := false, probeAllTime200 := false,
    listUsers := HttpResult.netErr "unused", listProjects := HttpResult.netErr "unused",
    timeEntries := fun _ => HttpResult.netErr "unused",
    projectDetail := fun _ => HttpResult.netErr "unused" }

def c3remB : Remote := { c3remA with probeUsers200 := false, probeProjects200 := true }

def c3cfgFull : Config :=
  { cid := 1, sync_level := SyncLevel.full, can_access_users := true,
    can_access_projects := true, can_access_all_time := true,
    current_user_id := none, sync_days_back := 30, sync_all_dates := false,
    last_sync := none }

def c3cfgMy : Config := { c3cfgFull with sync_level := SyncLevel.my_time }

theorem check_access_levels_ratchet_cex :
    (c3remA.probeUsers200 = true ∧ c3remA.probeProjects200 = false ∧
      c3cfgFull.sync_level = SyncLevel.full ∧
      (check_access_levels c3remA c3cfgFull).sync_level = SyncLevel.full) ∧
    (c3remB.probeUsers200 = false ∧ c3remB.probeProjects200 = true ∧
      c3cfgMy.sync_level = SyncLevel.my_time ∧
      (check_access_levels c3remB c3cfgMy).sync_level = SyncLevel.all_time) := by
  decide

/-- C3 amended: after the probe, `sync_level` becomes `my_time` when both
the user-listing and project-listing probes fail, becomes `all_time` when
only the user-listing probe fails (even from a lower previous level, so the
adjustment is not one-way), and is left unchanged whenever the user-listing
probe succeeds — in particular it may remain `full` with a failing
project-listing probe. -/
theorem check_access_levels_adjustment (r : Remote) (c : Config) :
    (r.probeUsers200 = false → r.probeProjects200 = false →
      (check_access_levels r c).sync_level = SyncLevel.my_time) ∧
    (r.probeUsers200 = false → r.probeProjects200 = true →
      (check_access_levels r c).sync_level = SyncLevel.all_time) ∧
    (r.probeUsers200 = true →
      (check_access_levels r c).sync_level = c.sync_level) := by
  unfold check_access_levels
  cases hu : r.probeUsers200 <;> cases hp : r.probeProjects200 <;> simp [hu, hp]

def c3wRem : Remote := { c3remA with probeUsers200 := false, probeProjects200 := false }

theorem check_access_levels_adjustment_witness :
    (check_access_levels c3wRem c3cfgFull).sync_level = SyncLevel.my_time :=
  (check_access_levels_adjustment c3wRem c3cfgFull).1 rfl rfl

/-- C10: a raw time entry with no `user` sub-object is reconciled into
values whose required `harvest_user_id` reference is empty, so the store
rejects the create/write: the upsert fails and the entry is not stored
(the entries table is unchanged). -/
theorem time_entry_requires_user (cfg : Nat) (raw : RawTimeEntry) (db : DB)
    (h : raw.user = none) :
    (create_or_update_time_entry cfg raw db).2 =
      some "harvest.time.entry: harvest_user_id is required" ∧
    (create_or_update_time_entry cfg raw db).1.entries = db.entries := by
  unfold create_or_update_time_entry
  rw [h]
  simp only [resolveUser]
  rcases hrp : resolveProject cfg db raw.project with ⟨projRef, dbP⟩
  have he : dbP.entries = db.entries := by
    have := resolveProject_entries cfg db raw.project
    rw [hrp] at this
    exact this
  simp [hrp, he]

def c10raw : RawTimeEntry :=
  { id := 7, spent_date := 3, hours := some 2, notes := none, is_locked := none,
    is_running := none, user := none, project := none }

def c10db : DB := { employees := [], users := [], projects := [], entries := [], nextId := 1 }

theorem time_entry_requires_user_witness :
    (create_or_update_time_entry 1 c10raw c10db).2 =
      some "harvest.time.entry: harvest_user_id is required" ∧
    (create_or_update_time_entry 1 c10raw c10db).1.entries = c10db.entries :=
  time_entry_requires_user 1 c10raw c10db rfl

/-- The net effect of a proxy update on the matched mirror project: the
name is replaced when `proxyNameCond` holds, then the code is replaced when
`proxyCodeCond` holds. -/
def proxyMerge (raw : RawEmbProject) (p0 : MirrorProject) : MirrorProject :=
  let q := if proxyNameCond raw then { p0 with name := raw.name.getD "" } else p0
  if proxyCodeCond raw then { q with code := some (raw.code.getD "") } else q

theorem proxy_update_found (cfg : Nat) (raw : RawEmbProject) (db : DB)
    (p0 : MirrorProject)
    (hfind : db.projects.find? (fun p => p.harvest_id == toString raw.id) = some p0) :
    (create_or_update_proxy_project cfg raw db).projects.find?
        (fun p => p.harvest_id == toString raw.id) = some (proxyMerge raw p0) := by
  have hname := find?_replaceFirst (fun p : MirrorProject => p.harvest_id == toString raw.id)
    (fun p => { p with name := raw.name.getD "" }) (fun x hx => hx)
  have hcode := find?_replaceFirst (fun p : MirrorProject => p.harvest_id == toString raw.id)
    (fun p => { p with code := some (raw.code.getD "") }) (fun x hx => hx)
  simp only [create_or_update_proxy_project, hfind, proxyMerge]
  cases hn : proxyNameCond raw <;> cases hc : proxyCodeCond raw <;>
    simp [hn, hc, hname, hcode, hfind]

/-- C5: proxy project updates are monotone on the matched record — a real
incoming name always lands; the stored name is never turned (back) into the
synthetic placeholder; an absent, empty or synthetic incoming name leaves
the name alone; and the code is replaced exactly when the incoming code is
non-empty. -/
theorem proxy_project_upgrade_monotone (cfg : Nat) (raw : RawEmbProject) (db : DB)
    (p0 : MirrorProject)
    (hfind : db.projects.find? (fun p => p.harvest_id == toString raw.id) = some p0) :
    ∃ p1, (create_or_update_proxy_project cfg raw db).projects.find?
        (fun p => p.harvest_id == toString raw.id) = some p1 ∧
      (∀ n, raw.name = some n → n ≠ "" → n ≠ "Project " ++ toString raw.id → p1.name = n) ∧
      (p0.name ≠ "Project " ++ toString raw.id → p1.name ≠ "Project " ++ toString raw.id) ∧
      ((raw.name = none ∨ raw.name = some "" ∨
        raw.name = some ("Project " ++ toString raw.id)) → p1.name = p0.name) ∧
      (∀ cd, raw.code = some cd → cd ≠ "" → p1.code = some cd) ∧
      ((raw.code = none ∨ raw.code = some "") → p1.code = p0.code) := by
  refine ⟨proxyMerge raw p0, proxy_update_found cfg raw db p0 hfind, ?_, ?_, ?_, ?_, ?_⟩
  · intro n hn h1 h2
    have hcond : proxyNameCond raw = true := by simp [proxyNameCond, hn, h1, h2]
    simp [proxyMerge, hcond, hn]
    cases hc : proxyCodeCond raw <;> simp [hc]
  · intro h0
    cases hcond : proxyNameCond raw with
    | false =>
      have : (proxyMerge raw p0).name = p0.name := by
        simp [proxyMerge, hcond]
        cases hc : proxyCodeCond raw <;> simp [hc]
      rw [this]; exact h0
    | true =>
      cases hn : raw.name with
      | none => simp [proxyNameCond, hn] at hcond
      | some n =>
        have h2 : n ≠ "Project " ++ toString raw.id := by
          simp [proxyNameCond, hn] at hcond
          exact hcond.2
        have : (proxyMerge raw p0).name = n := by
          simp [proxyMerge, hcond, hn]
          cases hc : proxyCodeCond raw <;> simp [hc]
        rw [this]; exact h2
  · intro h
    have hcond : proxyNameCond raw = false := by
      rcases h with h | h | h <;> simp [proxyNameCond, h]
    simp [proxyMerge, hcond]
    cases hc : proxyCodeCond raw <;> simp [hc]
  · intro cd hcd h1
    have hcond : proxyCodeCond raw = true := by simp [proxyCodeCond, hcd, h1]
    simp [proxyMerge, hcond, hcd]
  · intro h
    have hcond : proxyCodeCond raw = false := by
      rcases h with h | h <;> simp [proxyCodeCond, h]
    simp [proxyMerge, hcond]
    cases hn : proxyNameCond raw <;> simp [hn]

def c5p0 : MirrorProject :=
  { rid := 1, harvest_id := "42", name := "Project 42", code := some "",
    project_id := none, is_active := true, budget := none, config_id := 1 }

def c5db : DB := { employees := [], users := [], projects := [c5p0], entries := [], nextId := 2 }

def c5raw : RawEmbProject := { id := 42, name := some "Real Name", code := some "RN" }

theorem proxy_project_upgrade_monotone_witness :
    ∃ p1, (create_or_update_proxy_project 1 c5raw c5db).projects.find?
        (fun p => p.harvest_id == toString c5raw.id) = some p1 ∧
      p1.name = "Real Name" ∧ p1.code = some "RN" := by
  rcases proxy_project_upgrade_monotone 1 c5raw c5db c5p0 (by decide)
    with ⟨p1, hfind, hup, _, _, hcode, _⟩
  exact ⟨p1, hfind, hup "Real Name" rfl (by decide) (by decide), hcode "RN" rfl (by decide)⟩

/-- C7 counterexample: a raw time entry with no `project` sub-object (and
no `user` sub-object either) is not reconciled successfully — the upsert
reports the required-user violation and stores nothing, refuting the claim
that reconciliation succeeds for every entry lacking a project sub-object. -/
def c7raw : RawTimeEntry :=
  { id := 11, spent_date := 4, hours := some 1, notes := none, is_locked := none,
    is_running := none, user := none, project := none }

def c7db : DB := { employees := [], users := [], projects := [], entries := [], nextId := 1 }

theorem orphan_entry_missing_user_cex :
    c7raw.project = none ∧
    (create_or_update_time_entry 1 c7raw c7db).2 =
      some "harvest.time.entry: harvest_user_id is required" ∧
    (create_or_update_time_entry 1 c7raw c7db).1.entries = [] := by
  decide

/-- C7 amended: a raw time entry that has a `user` sub-object but no
`project` sub-object is reconciled successfully into a mirror time entry
whose project reference is empty — the missing project is not treated as an
error and the entry is not dropped. -/
theorem orphan_project_tolerated (cfg : Nat) (raw : RawTimeEntry) (db : DB)
    (u : RawEmbUser) (hu : raw.user = some u) (hp : raw.project = none) :
    (create_or_update_time_entry cfg raw db).2 = none ∧
    ∃ te, (create_or_update_time_entry cfg raw db).1.entries.find?
        (fun t => t.harvest_id == toString raw.id) = some te ∧
      te.harvest_project_id = none := by
  unfold create_or_update_time_entry
  rw [hu, hp]
  rcases hru : resolveUser cfg db (some u) with ⟨userRef, dbU⟩
  have hUe : dbU.entries = db.entries := by
    have h := resolveUser_entries cfg db (some u)
    rw [hru] at h
    exact h
  rcases resolveUser_some cfg db u with ⟨k, hk⟩
  rw [hru] at hk
  simp only at hk
  subst hk
  simp only [resolveProject]
  cases hfe : db.entries.find? (fun t => t.harvest_id == toString raw.id) with
  | some t0 =>
    have hpres : ∀ x : MirrorTimeEntry,
        (fun t => t.harvest_id == toString raw.id) x = true →
        (fun t => t.harvest_id == toString raw.id) (entryVals cfg raw k none x) = true := by
      intro x _
      simp [entryVals]
    have hrepl := find?_replaceFirst (fun t : MirrorTimeEntry => t.harvest_id == toString raw.id)
      (entryVals cfg raw k none) hpres db.entries
    rw [hfe] at hrepl
    constructor
    · simp [hfe]
    · refine ⟨entryVals cfg raw k none t0, ?_, rfl⟩
      simp only [hfe, Option.isSome_some, if_true]
      rw [hUe]
      exact hrepl
  | none =>
    have hnew : (fun t : MirrorTimeEntry => t.harvest_id == toString raw.id)
        (newEntry cfg raw k none dbU.nextId) = true := by
      simp [newEntry]
    have happ := find?_append_right (fun t : MirrorTimeEntry => t.harvest_id == toString raw.id)
      (newEntry cfg raw k none dbU.nextId) dbU.entries (by rw [hUe]; exact hfe) hnew
    constructor
    · simp [hfe]
    · exact ⟨newEntry cfg raw k none dbU.nextId, by simp [hfe, happ], rfl⟩

def c7wraw : RawTimeEntry :=
  { id := 11, spent_date := 4, hours := some 1, notes := none, is_locked := none,
    is_running := none, user := some { id := 9, name := some "A" }, project := none }

theorem orphan_project_tolerated_witness :
    (create_or_update_time_entry 1 c7wraw c7db).2 = none ∧
    ∃ te, (create_or_update_time_entry 1 c7wraw c7db).1.entries.find?
        (fun t => t.harvest_id == toString c7wraw.id) = some te ∧
      te.harvest_project_id = none :=
  orphan_project_tolerated 1 c7wraw c7db { id := 9, name := some "A" } rfl rfl

/-- C8 counterexample: a project record with no `name` key going through the
full project sync (`_create_or_update_project`) is not given the synthetic
`"Project <id>"` default — the upsert fails on the required name column. -/
def c8raw : RawProject := { id := 7, name := none, code := none, is_active := none, budget := none }

def c8db : DB := { employees := [], users := [], projects := [], entries := [], nextId := 1 }

theorem full_sync_missing_name_cex :
    c8raw.name = none ∧
    create_or_update_project 1 c8raw c8db = Except.error "harvest.project: name is required" :=
  ⟨rfl, rfl⟩

/-- C8 amended: the `"Project <id>"` name default and the empty-string code
default apply only on the proxy reconciliation paths (the proxy-project
upsert and the inline proxy created while resolving a time entry's embedded
project); the full project sync applies no default — a record without a
name fails the required-name column, and a record without a code stores an
empty (null) code rather than the empty string. -/
theorem project_name_default_paths :
    (∀ (cfg : Nat) (raw : RawEmbProject) (db : DB),
      db.projects.find? (fun p => p.harvest_id == toString raw.id) = none →
      raw.name = none → raw.code = none →
      ∃ p, (create_or_update_proxy_project cfg raw db).projects = db.projects ++ [p] ∧
        p.name = "Project " ++ toString raw.id ∧ p.code = some "") ∧
    (∀ (cfg : Nat) (raw : RawTimeEntry) (db : DB) (u : RawEmbUser) (pd : RawEmbProject),
      raw.user = some u → raw.project = some pd →
      (resolveUser cfg db raw.user).2.projects.find?
        (fun p => p.harvest_id == toString pd.id) = none →
      pd.name = none → pd.code = none →
      ∃ p, (create_or_update_time_entry cfg raw db).1.projects = db.projects ++ [p] ∧
        p.name = "Project " ++ toString pd.id ∧ p.code = some "") ∧
    (∀ (cfg : Nat) (raw : RawProject) (db : DB), raw.name = none →
      create_or_update_project cfg raw db = Except.error "harvest.project: name is required") ∧
    (∀ (cfg : Nat) (raw : RawProject) (db : DB) (nm : String) (db2 : DB),
      raw.name = some nm → raw.code = none →
      create_or_update_project cfg raw db = Except.ok db2 →
      ∃ p, db2.projects.find? (fun q => q.harvest_id == toString raw.id) = some p ∧
        p.code = none) := by
  refine ⟨?_, ?_, ?_, ?_⟩
  · intro cfg raw db hfind hn hc
    simp only [create_or_update_proxy_project, hfind]
    exact ⟨_, rfl, by simp [hn], by simp [hc]⟩
  · intro cfg raw db u pd hu hpd hfind hn hc
    unfold create_or_update_time_entry
    rw [hu, hpd]
    rcases hru : resolveUser cfg db (some u) with ⟨userRef, dbU⟩
    have hUp : dbU.projects = db.projects := by
      have h := resolveUser_projects cfg db (some u)
      rw [hru] at h
      exact h
    rw [hu, hru] at hfind
    simp only at hfind
    rcases resolveUser_some cfg db u with ⟨k, hk⟩
    rw [hru] at hk
    simp only at hk
    subst hk
    simp only [resolveProject, hfind]
    cases hfe : (db.entries.find? (fun t => t.harvest_id == toString raw.id)).isSome <;>
      simp [hfe, hUp, hn, hc]
  · intro cfg raw db hn
    unfold create_or_update_project
    cases hf : db.projects.find? (fun p => p.harvest_id == toString raw.id) <;>
      simp [hf, hn]
  · intro cfg raw db nm db2 hn hc hok
    simp only [create_or_update_project] at hok
    cases hf : db.projects.find? (fun p => p.harvest_id == toString raw.id) with
    | some p0 =>
      simp only [hf, hn] at hok
      rw [Except.ok.injEq] at hok
      subst hok
      have hupd : ∀ x : MirrorProject,
          (fun p => p.harvest_id == toString raw.id) x = true →
          (fun p => p.harvest_id == toString raw.id)
            ({ x with
               harvest_id := toString raw.id, name := nm, code := raw.code,
               is_active := raw.is_active.getD false, budget := raw.budget,
               config_id := cfg }) = true := by
        intro x _
        simp
      have hrepl := find?_replaceFirst (fun p : MirrorProject => p.harvest_id == toString raw.id)
        (fun p =>
          { p with
            harvest_id := toString raw.id, name := nm, code := raw.code,
            is_active := raw.is_active.getD false, budget := raw.budget,
            config_id := cfg }) hupd db.projects
      rw [hf] at hrepl
      exact ⟨_, hrepl, by simp [hc]⟩
    | none =>
      simp only [hf, hn] at hok
      rw [Except.ok.injEq] at hok
      subst hok
      have happ := find?_append_right (fun p : MirrorProject => p.harvest_id == toString raw.id)
        { rid := db.nextId, harvest_id := toString raw.id, name := nm, code := raw.code,
          project_id := none, is_active := raw.is_active.getD false,
          budget := raw.budget, config_id := cfg } db.projects hf (by simp)
      exact ⟨_, happ, by simp [hc]⟩

def c8wdb : DB := { employees := [], users := [], projects := [], entries := [], nextId := 1 }

theorem project_name_default_paths_witness :
    ∃ p, (create_or_update_proxy_project 1 { id := 7, name := none, code := none } c8wdb).projects =
        c8wdb.projects ++ [p] ∧
      p.name = "Project 7" ∧ p.code = some "" := by
  rcases project_name_default_paths.1 1 { id := 7, name := none, code := none } c8wdb
    rfl rfl rfl with ⟨p, h1, h2, h3⟩
  exact ⟨p, h1, h2, h3⟩

/-! ### Key-uniqueness preservation of the upserts -/

theorem beq_key_of_find?_eq_none {α : Type} (key : α → String) (v : String)
    (l : List α) (hf : l.find? (fun x => key x == v) = none) :
    ∀ x ∈ l, key x ≠ v := by
  intro x hx heq
  have h := List.find?_eq_none.mp hf x hx
  apply h
  rw [heq]
  simp

theorem keys_create_or_update_user (cfg : Nat) (raw : RawFullUser) (db : DB)
    (h : (db.users.map (fun u => u.harvest_id)).Nodup) :
    ((create_or_update_user cfg raw db).users.map (fun u => u.harvest_id)).Nodup := by
  simp only [create_or_update_user]
  cases hf : db.users.find? (fun u => u.harvest_id == toString raw.id) with
  | some u0 =>
    simp only [hf]
    have hpres : ∀ x : MirrorUser,
        (fun u => u.harvest_id == toString raw.id) x = true →
        ({ x with
           harvest_id := toString raw.id,
           name := (raw.first_name.getD "" ++ " " ++ raw.last_name.getD "").trim,
           email := raw.email, is_active := raw.is_active.getD false,
           config_id := cfg } : MirrorUser).harvest_id = x.harvest_id := by
      intro x hx
      have hx2 : x.harvest_id = toString raw.id := eq_of_beq hx
      simp [hx2]
    rw [replaceFirst_map_key (fun u : MirrorUser => u.harvest_id) _ _ hpres db.users]
    exact h
  | none =>
    simp only [hf]
    exact nodup_map_append (fun u : MirrorUser => u.harvest_id) db.users _ h
      (beq_key_of_find?_eq_none (fun u : MirrorUser => u.harvest_id) (toString raw.id) db.users hf)

theorem keys_create_or_update_project (cfg : Nat) (raw : RawProject) (db db2 : DB)
    (h : (db.projects.map (fun p => p.harvest_id)).Nodup)
    (hok : create_or_update_project cfg raw db = Except.ok db2) :
    (db2.projects.map (fun p => p.harvest_id)).Nodup := by
  simp only [create_or_update_project] at hok
  cases hf : db.projects.find? (fun p => p.harvest_id == toString raw.id) with
  | some p0 =>
    simp only [hf] at hok
    cases hn : raw.name with
    | none => rw [hn] at hok; exact absurd hok (by simp)
    | some nm =>
      rw [hn] at hok
      rw [Except.ok.injEq] at hok
      subst hok
      have hpres : ∀ x : MirrorProject,
          (fun p => p.harvest_id == toString raw.id) x = true →
          ({ x with
             harvest_id := toString raw.id, name := nm, code := raw.code,
             is_active := raw.is_active.getD false, budget := raw.budget,
             config_id := cfg } : MirrorProject).harvest_id = x.harvest_id := by
        intro x hx
        have hx2 : x.harvest_id = toString raw.id := eq_of_beq hx
        simp [hx2]
      rw [replaceFirst_map_key (fun p : MirrorProject => p.harvest_id) _ _ hpres db.projects]
      exact h
  | none =>
    simp only [hf] at hok
    cases hn : raw.name with
    | none => rw [hn] at hok; exact absurd hok (by simp)
    | some nm =>
      rw [hn] at hok
      rw [Except.ok.injEq] at hok
      subst hok
      exact nodup_map_append (fun p : MirrorProject => p.harvest_id) db.projects _ h
        (beq_key_of_find?_eq_none (fun p : MirrorProject => p.harvest_id) (toString raw.id) db.projects hf)

theorem keys_resolveUser (cfg : Nat) (db : DB) (o : Option RawEmbUser)
    (h : (db.users.map (fun u => u.harvest_id)).Nodup) :
    ((resolveUser cfg db o).2.users.map (fun u => u.harvest_id)).Nodup := by
  cases o with
  | none => exact h
  | some u =>
    simp only [resolveUser]
    cases hf : db.users.find? (fun x => x.harvest_id == toString u.id) with
    | some hu => exact h
    | none =>
      exact nodup_map_append (fun x : MirrorUser => x.harvest_id) db.users _ h
        (beq_key_of_find?_eq_none (fun x : MirrorUser => x.harvest_id) (toString u.id) db.users hf)

theorem keys_resolveProject (cfg : Nat) (db : DB) (o : Option RawEmbProject)
    (h : (db.projects.map (fun p => p.harvest_id)).Nodup) :
    ((resolveProject cfg db o).2.projects.map (fun p => p.harvest_id)).Nodup := by
  cases o with
  | none => exact h
  | some pd =>
    simp only [resolveProject]
    cases hf : db.projects.find? (fun x => x.harvest_id == toString pd.id) with
    | some hp => exact h
    | none =>
      exact nodup_map_append (fun x : MirrorProject => x.harvest_id) db.projects _ h
        (beq_key_of_find?_eq_none (fun x : MirrorProject => x.harvest_id) (toString pd.id) db.projects hf)

theorem keys_create_or_update_time_entry (cfg : Nat) (raw : RawTimeEntry) (db : DB)
    (hU : (db.users.map (fun u => u.harvest_id)).Nodup)
    (hP : (db.projects.map (fun p => p.harvest_id)).Nodup)
    (hE : (db.entries.map (fun t => t.harvest_id)).Nodup) :
    (((create_or_update_time_entry cfg raw db).1.users.map (fun u => u.harvest_id)).Nodup ∧
     ((create_or_update_time_entry cfg raw db).1.projects.map (fun p => p.harvest_id)).Nodup ∧
     ((create_or_update_time_entry cfg raw db).1.entries.map (fun t => t.harvest_id)).Nodup) := by
  unfold create_or_update_time_entry
  rcases hru : resolveUser cfg db raw.user with ⟨userRef, dbU⟩
  rcases hrp : resolveProject cfg dbU raw.project with ⟨projRef, dbP⟩
  have hUu : (dbU.users.map (fun u => u.harvest_id)).Nodup := by
    have h := keys_resolveUser cfg db raw.user hU
    rw [hru] at h
    exact h
  have hUp : dbU.projects = db.projects := by
    have h := resolveUser_projects cfg db raw.user
    rw [hru] at h
    exact h
  have hUe : dbU.entries = db.entries := by
    have h := resolveUser_entries cfg db raw.user
    rw [hru] at h
    exact h
  have hPu : dbP.users = dbU.users := by
    have h := resolveProject_users cfg dbU raw.project
    rw [hrp] at h
    exact h
  have hPp : (dbP.projects.map (fun p => p.harvest_id)).Nodup := by
    have h := keys_resolveProject cfg dbU raw.project (by rw [hUp]; exact hP)
    rw [hrp] at h
    exact h
  have hPe : dbP.entries = db.entries := by
    have h := resolveProject_entries cfg dbU raw.project
    rw [hrp] at h
    rw [h]
    exact hUe
  cases userRef with
  | none =>
    simp only [hrp]
    exact ⟨hPu.symm ▸ hUu, hPp, hPe.symm ▸ hE⟩
  | some ur =>
    cases hfind : db.entries.find? (fun t => t.harvest_id == toString raw.id) with
    | some t0 =>
      simp only [hrp, hfind, Option.isSome_some, eq_self_iff_true, if_true]
      refine ⟨hPu.symm ▸ hUu, hPp, ?_⟩
      have hpres : ∀ x : MirrorTimeEntry,
          (fun t => t.harvest_id == toString raw.id) x = true →
          (entryVals cfg raw ur projRef x).harvest_id = x.harvest_id := by
        intro x hx
        have hx2 : x.harvest_id = toString raw.id := eq_of_beq hx
        simp [entryVals, hx2]
      rw [replaceFirst_map_key (fun t : MirrorTimeEntry => t.harvest_id) _ _ hpres dbP.entries]
      rw [hPe]
      exact hE
    | none =>
      simp only [hrp, hfind, Option.isSome_none, Bool.false_eq_true, if_false]
      refine ⟨hPu.symm ▸ hUu, hPp, ?_⟩
      have hfresh : ∀ x ∈ dbP.entries,
          x.harvest_id ≠ (newEntry cfg raw ur projRef dbP.nextId).harvest_id := by
        rw [hPe]
        exact beq_key_of_find?_eq_none (fun t : MirrorTimeEntry => t.harvest_id)
          (toString raw.id) db.entries hfind
      exact nodup_map_append (fun t : MirrorTimeEntry => t.harvest_id) dbP.entries _
        (hPe.symm ▸ hE) hfresh

/-- C4 counterexample: the user upsert looks up the mirror record by
external id alone, so a record owned by configuration 1 is matched and
overwritten (re-owned) by a sync run of configuration 2 — the claim says a
record of a different configuration is never matched or modified. -/
def c4u0 : MirrorUser :=
  { rid := 1, harvest_id := "5", name := "Old", email := none, employee_id := none,
    is_active := true, config_id := 1 }

def c4db : DB := { employees := [], users := [c4u0], projects := [], entries := [], nextId := 2 }

def c4raw : RawFullUser :=
  { id := 5, first_name := some "New", last_name := some "Person", email := none,
    is_active := some true }

theorem upsert_cross_config_cex :
    c4u0.config_id = 1 ∧
    (create_or_update_user 2 c4raw c4db).users.length = 1 ∧
    (create_or_update_user 2 c4raw c4db).users.map (fun u => u.config_id) = [2] ∧
    (create_or_update_user 2 c4raw c4db).users.map (fun u => u.harvest_id) = ["5"] := by
  refine ⟨rfl, ?_, ?_, ?_⟩ <;> decide

/-- C4 amended: mirror lookups are by external id alone, not by
(external id, configuration): a matched record is overwritten in place —
including its owning configuration — even when it belongs to another
configuration, and no duplicate row is created.  Consequently the upserts
preserve "at most one mirror record of a given kind per external id"
(hence, a fortiori, per (external id, configuration) pair). -/
theorem upsert_unscoped_unique :
    (∀ (cfg : Nat) (rawU : RawFullUser) (db : DB) (u : MirrorUser),
      db.users.find? (fun x => x.harvest_id == toString rawU.id) = some u →
      (create_or_update_user cfg rawU db).users.map (fun x => x.harvest_id) =
        db.users.map (fun x => x.harvest_id) ∧
      ∃ v, (create_or_update_user cfg rawU db).users.find?
          (fun x => x.harvest_id == toString rawU.id) = some v ∧ v.config_id = cfg) ∧
    (∀ (cfg : Nat) (rawU : RawFullUser) (db : DB),
      (db.users.map (fun x => x.harvest_id)).Nodup →
      ((create_or_update_user cfg rawU db).users.map (fun x => x.harvest_id)).Nodup) ∧
    (∀ (cfg : Nat) (rawP : RawProject) (db db2 : DB),
      (db.projects.map (fun x => x.harvest_id)).Nodup →
      create_or_update_project cfg rawP db = Except.ok db2 →
      (db2.projects.map (fun x => x.harvest_id)).Nodup) ∧
    (∀ (cfg : Nat) (rawT : RawTimeEntry) (db : DB),
      (db.users.map (fun x => x.harvest_id)).Nodup →
      (db.projects.map (fun x => x.harvest_id)).Nodup →
      (db.entries.map (fun x => x.harvest_id)).Nodup →
      ((create_or_update_time_entry cfg rawT db).1.users.map (fun x => x.harvest_id)).Nodup ∧
      ((create_or_update_time_entry cfg rawT db).1.projects.map (fun x => x.harvest_id)).Nodup ∧
      ((create_or_update_time_entry cfg rawT db).1.entries.map (fun x => x.harvest_id)).Nodup) := by
  refine ⟨?_, ?_, ?_, ?_⟩
  · intro cfg rawU db u hfind
    constructor
    · simp only [create_or_update_user, hfind]
      have hpres : ∀ x : MirrorUser,
          (fun y => y.harvest_id == toString rawU.id) x = true →
          ({ x with
             harvest_id := toString rawU.id,
             name := (rawU.first_name.getD "" ++ " " ++ rawU.last_name.getD "").trim,
             email := rawU.email, is_active := rawU.is_active.getD false,
             config_id := cfg } : MirrorUser).harvest_id = x.harvest_id := by
        intro x hx
        have hx2 : x.harvest_id = toString rawU.id := eq_of_beq hx
        simp [hx2]
      exact replaceFirst_map_key (fun y : MirrorUser => y.harvest_id) _ _ hpres db.users
    · simp only [create_or_update_user, hfind]
      have hpres : ∀ x : MirrorUser,
          (fun y => y.harvest_id == toString rawU.id) x = true →
          (fun y => y.harvest_id == toString rawU.id)
            ({ x with
               harvest_id := toString rawU.id,
               name := (rawU.first_name.getD "" ++ " " ++ rawU.last_name.getD "").trim,
               email := rawU.email, is_active := rawU.is_active.getD false,
               config_id := cfg } : MirrorUser) = true := by
        intro x _
        simp
      have hr := find?_replaceFirst (fun y : MirrorUser => y.harvest_id == toString rawU.id)
        _ hpres db.users
      rw [hfind] at hr
      exact ⟨_, hr, rfl⟩
  · intro cfg rawU db h
    exact keys_create_or_update_user cfg rawU db h
  · intro cfg rawP db db2 h hok
    exact keys_create_or_update_project cfg rawP db db2 h hok
  · intro cfg rawT db hU hP hE
    exact keys_create_or_update_time_entry cfg rawT db hU hP hE

def c4wdb : DB :=
  { employees := [],
    users := [{ rid := 1, harvest_id := "5", name := "Old", email := none,
                employee_id := none, is_active := true, config_id := 1 }],
    projects := [], entries := [], nextId := 2 }

theorem upsert_unscoped_unique_witness :
    ((create_or_update_user 2 c4raw c4wdb).users.map (fun x => x.harvest_id) =
      c4wdb.users.map (fun x => x.harvest_id)) ∧
    (∃ v, (create_or_update_user 2 c4raw c4wdb).users.find?
        (fun x => x.harvest_id == toString c4raw.id) = some v ∧ v.config_id = 2) ∧
    ((create_or_update_user 2 c4raw c4wdb).users.map (fun x => x.harvest_id)).Nodup := by
  rcases upsert_unscoped_unique.1 2 c4raw c4wdb
      { rid := 1, harvest_id := "5", name := "Old", email := none,
        employee_id := none, is_active := true, config_id := 1 } (by decide)
    with ⟨h1, h2⟩
  exact ⟨h1, h2, upsert_unscoped_unique.2.1 2 c4raw c4wdb (by decide)⟩

/-! ### Pagination -/

/-- The store after sequentially reconciling pages `p, p+1, …` (`len` many):
each page's records are upserted before the next page is consumed. -/
def foldPages (cfg : Nat) (pg : Nat → Page) : Nat → Nat → DB → DB
  | _, 0, db => db
  | p, len+1, db => foldPages cfg pg (p + 1) len (upsertEntries cfg (pg p).time_entries db).1

/-- The requests issued for pages `p, p+1, …` (`len` many) over fixed base
query parameters. -/
def pageParamsFrom (base : ReqParams) : Nat → Nat → List ReqParams
  | _, 0 => []
  | p, len+1 => { base with page := p } :: pageParamsFrom base (p + 1) len

theorem create_or_update_time_entry_ok (cfg : Nat) (e : RawTimeEntry) (db : DB)
    (u : RawEmbUser) (hue : e.user = some u) :
    (create_or_update_time_entry cfg e db).2 = none := by
  unfold create_or_update_time_entry
  rw [hue]
  rcases hru : resolveUser cfg db (some u) with ⟨userRef, dbU⟩
  rcases resolveUser_some cfg db u with ⟨k, hk⟩
  rw [hru] at hk
  simp only at hk
  subst hk
  rcases hrp : resolveProject cfg dbU e.project with ⟨projRef, dbP⟩
  simp only [hrp]
  split <;> rfl

theorem upsertEntries_ok (cfg : Nat) (es : List RawTimeEntry)
    (h : ∀ e ∈ es, e.user.isSome) : ∀ db : DB, (upsertEntries cfg es db).2 = none := by
  induction es with
  | nil => intro db; rfl
  | cons e rest ih =>
    intro db
    cases hue : e.user with
    | none =>
      have hs := h e (by simp)
      rw [hue] at hs
      simp at hs
    | some u =>
      have hok := create_or_update_time_entry_ok cfg e db u hue
      unfold upsertEntries
      rcases hc : create_or_update_time_entry cfg e db with ⟨db2, r2⟩
      rw [hc] at hok
      simp only at hok
      subst hok
      exact ih (fun x hx => h x (by simp [hx])) db2

theorem pageLoopSwallow_run (fetch : ReqParams → HttpResult Page) (cfg : Nat)
    (base : ReqParams) (pg : Nat → Page) (N : Nat)
    (hfetch : ∀ k, 1 ≤ k → k ≤ N → fetch { base with page := k } = HttpResult.ok (pg k))
    (htp : ∀ k, 1 ≤ k → k ≤ N → (pg k).total_pages = N)
    (huser : ∀ k, 1 ≤ k → k ≤ N → ∀ e ∈ (pg k).time_entries, e.user.isSome) :
    ∀ (fuel p : Nat) (db : DB) (tr : List ReqParams),
      1 ≤ p → p ≤ N → N + 1 ≤ fuel + p →
      pageLoopSwallow fetch cfg fuel p base db tr =
        (foldPages cfg pg p (N + 1 - p) db, tr ++ pageParamsFrom base p (N + 1 - p)) := by
  intro fuel
  induction fuel with
  | zero =>
    intro p db tr h1 h2 h3
    exact absurd h3 (by omega)
  | succ fuel ih =>
    intro p db tr h1 h2 h3
    simp only [pageLoopSwallow, hfetch p h1 h2]
    rcases hup : upsertEntries cfg (pg p).time_entries db with ⟨db2, r2⟩
    have hnone := upsertEntries_ok cfg (pg p).time_entries (huser p h1 h2) db
    rw [hup] at hnone
    simp only at hnone
    subst hnone
    simp only [htp p h1 h2]
    by_cases hpN : p = N
    · have hge : p ≥ N := by omega
      rw [if_pos hge]
      have hl : N + 1 - p = 1 := by omega
      rw [hl]
      simp [foldPages, pageParamsFrom, hup]
    · have hlt : ¬ p ≥ N := by omega
      rw [if_neg hlt]
      have hih := ih (p + 1) db2 (tr ++ [{ base with page := p }])
        (by omega) (by omega) (by omega)
      rw [hih]
      have hl1 : N + 1 - p = (N - p) + 1 := by omega
      have hl2 : N + 1 - (p + 1) = N - p := by omega
      rw [hl1, hl2]
      simp [foldPages, pageParamsFrom, hup]

theorem pageLoopRaise_run (fetch : ReqParams → HttpResult Page) (cfg : Nat)
    (base : ReqParams) (pg : Nat → Page) (N : Nat)
    (hfetch : ∀ k, 1 ≤ k → k ≤ N → fetch { base with page := k } = HttpResult.ok (pg k))
    (htp : ∀ k, 1 ≤ k → k ≤ N → (pg k).total_pages = N)
    (huser : ∀ k, 1 ≤ k → k ≤ N → ∀ e ∈ (pg k).time_entries, e.user.isSome) :
    ∀ (fuel p : Nat) (db : DB) (tr : List ReqParams),
      1 ≤ p → p ≤ N → N + 1 ≤ fuel + p →
      pageLoopRaise fetch cfg fuel p base db tr =
        (Except.ok (foldPages cfg pg p (N + 1 - p) db),
         tr ++ pageParamsFrom base p (N + 1 - p)) := by
  intro fuel
  induction fuel with
  | zero =>
    intro p db tr h1 h2 h3
    exact absurd h3 (by omega)
  | succ fuel ih =>
    intro p db tr h1 h2 h3
    simp only [pageLoopRaise, hfetch p h1 h2]
    rcases hup : upsertEntries cfg (pg p).time_entries db with ⟨db2, r2⟩
    have hnone := upsertEntries_ok cfg (pg p).time_entries (huser p h1 h2) db
    rw [hup] at hnone
    simp only at hnone
    subst hnone
    simp only [htp p h1 h2]
    by_cases hpN : p = N
    · have hge : p ≥ N := by omega
      rw [if_pos hge]
      have hl : N + 1 - p = 1 := by omega
      rw [hl]
      simp [foldPages, pageParamsFrom, hup]
    · have hlt : ¬ p ≥ N := by omega
      rw [if_neg hlt]
      have hih := ih (p + 1) db2 (tr ++ [{ base with page := p }])
        (by omega) (by omega) (by omega)
      rw [hih]
      have hl1 : N + 1 - p = (N - p) + 1 := by omega
      have hl2 : N + 1 - (p + 1) = N - p := by omega
      rw [hl1, hl2]
      simp [foldPages, pageParamsFrom, hup]

/-- C6: when every page response reports `total_pages = N` (`N ≥ 1`) and
every delivered entry carries its user sub-object, both pagination loops
(the bulk one of `sync_time_entries` and the raising one of
`sync_my_time_entries`) request exactly pages `1, …, N` in order — no
request for page `N+1` is issued — and the resulting store is the
sequential page-by-page fold, i.e. each page's records are reconciled
before the next page is requested. -/
theorem time_entry_pagination_exact (fetch : ReqParams → HttpResult Page) (cfg : Nat)
    (base : ReqParams) (pg : Nat → Page) (N fuel : Nat) (db : DB)
    (hN : 1 ≤ N) (hfuel : N ≤ fuel)
    (hfetch : ∀ k, 1 ≤ k → k ≤ N → fetch { base with page := k } = HttpResult.ok (pg k))
    (htp : ∀ k, 1 ≤ k → k ≤ N → (pg k).total_pages = N)
    (huser : ∀ k, 1 ≤ k → k ≤ N → ∀ e ∈ (pg k).time_entries, e.user.isSome) :
    pageLoopSwallow fetch cfg fuel 1 base db [] =
      (foldPages cfg pg 1 N db, pageParamsFrom base 1 N) ∧
    pageLoopRaise fetch cfg fuel 1 base db [] =
      (Except.ok (foldPages cfg pg 1 N db), pageParamsFrom base 1 N) ∧
    (pageParamsFrom base 1 N).map (fun q => q.page) = List.range' 1 N := by
  have h1 := pageLoopSwallow_run fetch cfg base pg N hfetch htp huser fuel 1 db []
    le_rfl hN (by omega)
  have h2 := pageLoopRaise_run fetch cfg base pg N hfetch htp huser fuel 1 db []
    le_rfl hN (by omega)
  have hN1 : N + 1 - 1 = N := by omega
  rw [hN1] at h1 h2
  simp only [List.nil_append] at h1 h2
  refine ⟨h1, h2, ?_⟩
  have hpages : ∀ (len p : Nat),
      (pageParamsFrom base p len).map (fun q => q.page) = List.range' p len := by
    intro len
    induction len with
    | zero => intro p; rfl
    | succ n ih =>
      intro p
      simp [pageParamsFrom, ih (p + 1), List.range'_succ]
  exact hpages N 1

/-- C6 counterexample: every page response reports `total_pages = 3`, yet
because the single record of page 1 has no `user` sub-object its upsert
raises, and both loops stop after requesting only page 1 — the claim's
unconditional "exactly pages 1 through N are requested" fails. -/
def c6cexEntry : RawTimeEntry :=
  { id := 1, spent_date := 2, hours := some 1, notes := none, is_locked := none,
    is_running := none, user := none, project := none }

def c6cexFetch : ReqParams → HttpResult Page :=
  fun _ => HttpResult.ok { time_entries := [c6cexEntry], total_pages := 3 }

def c6cexBase : ReqParams :=
  { page := 1, per_page := 100, user_id := none, fromDate := none, toDate := none }

def c6cexDb : DB := { employees := [], users := [], projects := [], entries := [], nextId := 1 }

theorem pagination_early_stop_cex :
    (∀ ps, ∃ body, c6cexFetch ps = HttpResult.ok body ∧ body.total_pages = 3) ∧
    (pageLoopSwallow c6cexFetch 1 10 1 c6cexBase c6cexDb []).2.map (fun q => q.page) = [1] ∧
    (pageLoopRaise c6cexFetch 1 10 1 c6cexBase c6cexDb []).2.map (fun q => q.page) = [1] :=
  ⟨fun _ => ⟨_, rfl, rfl⟩, by decide, by decide⟩

def c6fetch : ReqParams → HttpResult Page :=
  fun _ => HttpResult.ok { time_entries := [], total_pages := 3 }

def c6pg : Nat → Page := fun _ => { time_entries := [], total_pages := 3 }

def c6base : ReqParams :=
  { page := 1, per_page := 100, user_id := none, fromDate := none, toDate := none }

def c6db : DB := { employees := [], users := [], projects := [], entries := [], nextId := 1 }

theorem time_entry_pagination_exact_witness :
    pageLoopSwallow c6fetch 1 5 1 c6base c6db [] =
      (foldPages 1 c6pg 1 3 c6db, pageParamsFrom c6base 1 3) ∧
    pageLoopRaise c6fetch 1 5 1 c6base c6db [] =
      (Except.ok (foldPages 1 c6pg 1 3 c6db), pageParamsFrom c6base 1 3) ∧
    (pageParamsFrom c6base 1 3).map (fun q => q.page) = List.range' 1 3 :=
  time_entry_pagination_exact c6fetch 1 c6base c6pg 3 5 c6db (by omega) (by omega)
    (fun k hk1 hk2 => rfl) (fun k hk1 hk2 => rfl)
    (fun k hk1 hk2 e he => absurd he (List.not_mem_nil e))

/-! ### Timesheet projection -/

theorem action_count_and_length (w : Wizard) (aT aS eL pL : Nat → Option Nat) :
    ∀ (es : List MirrorTimeEntry) (n : Nat),
      (action_create_timesheets w aT aS eL pL n es).2.2 =
        es.countP (eligibleTs eL pL) ∧
      (action_create_timesheets w aT aS eL pL n es).2.1.length =
        (action_create_timesheets w aT aS eL pL n es).2.2 := by
  intro es
  induction es with
  | nil => intro n; exact ⟨rfl, rfl⟩
  | cons e rest ih =>
    intro n
    cases ht : e.timesheet_id with
    | some ts =>
      simp [action_create_timesheets, ht, List.countP_cons, eligibleTs, (ih n).1, (ih n).2]
    | none =>
      cases hemp : linkOf eL e.harvest_user_id with
      | none =>
        simp [action_create_timesheets, ht, hemp, List.countP_cons, eligibleTs,
          (ih n).1, (ih n).2]
      | some emp =>
        cases hprj : linkOf pL e.harvest_project_id with
        | none =>
          simp [action_create_timesheets, ht, hemp, hprj, List.countP_cons, eligibleTs,
            (ih n).1, (ih n).2]
        | some proj =>
          simp [action_create_timesheets, ht, hemp, hprj, List.countP_cons, eligibleTs,
            (ih (n + 1)).1, (ih (n + 1)).2]

theorem action_output_ineligible (w : Wizard) (aT aS eL pL : Nat → Option Nat) :
    ∀ (es : List MirrorTimeEntry) (n : Nat),
      ((action_create_timesheets w aT aS eL pL n es).1.countP (eligibleTs eL pL)) = 0 := by
  intro es
  induction es with
  | nil => intro n; rfl
  | cons e rest ih =>
    intro n
    cases ht : e.timesheet_id with
    | some ts =>
      simp [action_create_timesheets, ht, List.countP_cons, eligibleTs, ih n]
    | none =>
      cases hemp : linkOf eL e.harvest_user_id with
      | none =>
        simp [action_create_timesheets, ht, hemp, List.countP_cons, eligibleTs, ih n]
      | some emp =>
        cases hprj : linkOf pL e.harvest_project_id with
        | none =>
          simp [action_create_timesheets, ht, hemp, hprj, List.countP_cons, eligibleTs, ih n]
        | some proj =>
          simp [action_create_timesheets, ht, hemp, hprj, List.countP_cons, eligibleTs,
            ih (n + 1)]

theorem action_no_eligible (w : Wizard) (aT aS eL pL : Nat → Option Nat) :
    ∀ (es : List MirrorTimeEntry) (n : Nat),
      es.countP (eligibleTs eL pL) = 0 →
      (action_create_timesheets w aT aS eL pL n es).2.1 = [] ∧
      (action_create_timesheets w aT aS eL pL n es).2.2 = 0 := by
  intro es
  induction es with
  | nil => intro n _; exact ⟨rfl, rfl⟩
  | cons e rest ih =>
    intro n h
    have he : eligibleTs eL pL e = false := by
      have := List.countP_eq_zero.mp h e (by simp)
      simp at this
      exact this
    have hrest : rest.countP (eligibleTs eL pL) = 0 := by
      rw [List.countP_eq_zero] at h ⊢
      exact fun a ha => h a (by simp [ha])
    cases ht : e.timesheet_id with
    | some ts =>
      simpa [action_create_timesheets, ht] using ih n hrest
    | none =>
      cases hemp : linkOf eL e.harvest_user_id with
      | none =>
        simpa [action_create_timesheets, ht, hemp] using ih n hrest
      | some emp =>
        cases hprj : linkOf pL e.harvest_project_id with
        | none =>
          simpa [action_create_timesheets, ht, hemp, hprj] using ih n hrest
        | some proj =>
          rw [eligibleTs, ht, hemp, hprj] at he
          simp at he

/-- C9: the timesheet projection creates exactly one timesheet per eligible
entry (no timesheet link yet, user linked to an employee, project linked to
a local project): the reported created count equals the number of eligible
entries, exactly that many timesheet records are created, every entry of
the output set is ineligible (each eligible entry got back-linked), and a
second run over the output creates zero further timesheets. -/
theorem timesheet_projection_idempotent (w : Wizard) (aT aS eL pL : Nat → Option Nat)
    (n m : Nat) (es : List MirrorTimeEntry) :
    (action_create_timesheets w aT aS eL pL n es).2.2 =
      es.countP (eligibleTs eL pL) ∧
    (action_create_timesheets w aT aS eL pL n es).2.1.length =
      es.countP (eligibleTs eL pL) ∧
    ((action_create_timesheets w aT aS eL pL n es).1.countP (eligibleTs eL pL)) = 0 ∧
    (action_create_timesheets w aT aS eL pL m
        (action_create_timesheets w aT aS eL pL n es).1).2.1 = [] ∧
    (action_create_timesheets w aT aS eL pL m
        (action_create_timesheets w aT aS eL pL n es).1).2.2 = 0 := by
  have h1 := action_count_and_length w aT aS eL pL es n
  have h2 := action_output_ineligible w aT aS eL pL es n
  have h3 := action_no_eligible w aT aS eL pL
    (action_create_timesheets w aT aS eL pL n es).1 m h2
  exact ⟨h1.1, h1.2.trans h1.1, h2, h3.1, h3.2⟩

end HarvestSync
